import Mathlib

/-!
Verification development for the GhostRender repository
(`src/rust_blender_anim/src/main.rs`).

The program builds a Python script for an external renderer: it creates the
character objects of a walking rig, parents them, inserts per-frame location
and rotation keyframes for frames `0..=FRAMES` (with `FRAMES = 1800`), then a
camera path and a single audio strip, writes the script to disk, and finally
tries to spawn the external renderer.

The shallow embedding below translates `main.rs` directly.  The helper modules
`scene.rs` (rig and pose solver `calculate_walk_cycle`) and `audio.rs` are not
present under `src/`; the pose solver and the rig are therefore modelled from
the specification (marked `Modelled from the spec:` at each such definition),
while everything that `main.rs` itself determines (material dispatch, the
forward offset subtraction, the emission order, the camera path, the audio
strip, the render-invocation control flow) is translated from the source.
-/

namespace GhostRender

/-! ### String containment (Rust `str::contains`) -/

/-- Character-list prefix test, auxiliary to `containsSeg`. -/
def isPrefixChars : List Char → List Char → Bool
  | [], _ => true
  | _ :: _, [] => false
  | a :: as, b :: bs => a == b && isPrefixChars as bs

/-- `containsSeg pat s` holds when `pat` occurs as a contiguous segment of `s`. -/
def containsSeg : List Char → List Char → Bool
  | pat, [] => pat.isEmpty
  | pat, b :: bs => isPrefixChars pat (b :: bs) || containsSeg pat bs

/-- Rust substring test `s.contains(pat)` (`main.rs` line 87). -/
def strContains (s pat : String) : Bool := containsSeg pat.toList s.toList

/-! ### Material classification -/

/-- The three materials a character part can receive in `main.rs`
(`mat_skin`, `mat_blue`, `mat_orange`, lines 47-50). -/
inductive Material
  | matSkin
  | matBlue
  | matOrange
deriving DecidableEq

/-- The material classes named by the specification:
Skin, PrimaryAccent, SecondaryAccent. -/
inductive MaterialClass
  | skin
  | primaryAccent
  | secondaryAccent
deriving DecidableEq

/-- Material dispatch of `main.rs` lines 86-91: the outer Rust branch tests
`contains("Head") || contains("Arm") || contains("Leg")`; inside it the emitted
Python picks `mat_skin` when the name contains `Head` and `mat_blue` otherwise;
the outer else branch appends `mat_orange`. -/
def classifyEmit (name : String) : Material :=
  if strContains name "Head" || strContains name "Arm" || strContains name "Leg" then
    (if strContains name "Head" then Material.matSkin else Material.matBlue)
  else Material.matOrange

/-- The classification rule as the specification words it (section 4.1,
`classify`): contains `Head` gives Skin; else contains `Arm` or `Leg` gives
PrimaryAccent; every other name falls through to SecondaryAccent.  This
definition follows the wording of the spec and is compared with
`classifyEmit`, which follows the source. -/
def classifySpec (name : String) : MaterialClass :=
  if strContains name "Head" then MaterialClass.skin
  else if strContains name "Arm" || strContains name "Leg" then MaterialClass.primaryAccent
  else MaterialClass.secondaryAccent

/-- Correspondence between spec material classes and the concrete materials of
`main.rs`: Skin is `mat_skin`, PrimaryAccent is `mat_blue`, SecondaryAccent is
`mat_orange`. -/
def matOfClass : MaterialClass → Material
  | MaterialClass.skin => Material.matSkin
  | MaterialClass.primaryAccent => Material.matBlue
  | MaterialClass.secondaryAccent => Material.matOrange

/-! ### The rig -/

/-- A rational 3-vector, used for the bind-pose geometry so that the rig data
stays decidable. -/
structure QV3 where
  x : ℚ
  y : ℚ
  z : ℚ
deriving DecidableEq

/-- A rig part: name, optional parent name, bind-pose location and scale. -/
structure Part where
  name : String
  parent : Option String
  bindLoc : QV3
  bindScale : QV3
deriving DecidableEq

/-- Modelled from the spec: the root part of the rig built by the missing
`scene.rs`.  Section 4.1 fixes the root name `Torso` with no parent; the bind
geometry values are representative (the spec fixes none for the torso). -/
def torsoPart : Part := ⟨"Torso", none, ⟨0, 0, 1⟩, ⟨0.6, 0.4, 0.9⟩⟩

/-- Modelled from the spec: the canonical part list of `buildRig`, which lives
in the missing `scene.rs`.  Section 4.1 requires the root `Torso` plus at
least a head, two arms and two legs, every non-root part parented to a part of
the same rig; concrete bind values are representative. -/
def parts : List Part :=
  [torsoPart,
   ⟨"Head", some "Torso", ⟨0, 0, 1.7⟩, ⟨0.4, 0.4, 0.4⟩⟩,
   ⟨"ArmL", some "Torso", ⟨0.7, 0, 1.3⟩, ⟨0.25, 0.25, 0.8⟩⟩,
   ⟨"ArmR", some "Torso", ⟨-0.7, 0, 1.3⟩, ⟨0.25, 0.25, 0.8⟩⟩,
   ⟨"LegL", some "Torso", ⟨0.25, 0, 0.45⟩, ⟨0.3, 0.3, 0.9⟩⟩,
   ⟨"LegR", some "Torso", ⟨-0.25, 0, 0.45⟩, ⟨0.3, 0.3, 0.9⟩⟩]

/-! ### The emitted record stream

`main.rs` appends to one Python script string.  The order and reference
structure of the emitted records is modelled as a list of events: object
creation records (lines 76-92), parent-link records (lines 95-99), keyframe
records (lines 102-131, two `keyframe_insert` calls per object per frame:
location then rotation), camera keyframes (lines 148-153) and the single
audio strip (lines 159-164, `channel=1, frame_start=1`). -/

inductive Ev
  | create (name : String)
  | link (child parent : String)
  | key (frame : ℕ) (name : String) (rotChan : Bool)
  | cam (frame : ℕ)
  | audio (channel frameStart : ℕ)
deriving DecidableEq

/-- The two keyframe records one animation-loop iteration emits for each part
at frame `f` (`main.rs` lines 109-130): a location keyframe then a rotation
keyframe, in rig order. -/
def frameKeyBlock (f : ℕ) : List Ev :=
  parts.flatMap (fun p => [Ev.key f p.name false, Ev.key f p.name true])

/-- The full emitted record stream of `main` for `n + 1` animated frames
`0..=n` (in the source `n` is the constant `FRAMES = 1800`): creation records,
then parent links, then the animation loop, then camera keyframes
`for frame in range(0, n+1)`, then the audio strip. -/
def emitStream (n : ℕ) : List Ev :=
  (parts.map (fun p => Ev.create p.name))
    ++ ((parts.filterMap (fun p => p.parent.map (fun q => Ev.link p.name q)))
    ++ (((List.range (n + 1)).flatMap frameKeyBlock)
    ++ (((List.range (n + 1)).map Ev.cam)
    ++ [Ev.audio 1 1])))

/-- Emission phase of an event: creation 0, parenting 1, keyframes 2,
camera 3, audio 4. -/
def phase : Ev → ℕ
  | Ev.create _ => 0
  | Ev.link _ _ => 1
  | Ev.key _ _ _ => 2
  | Ev.cam _ => 3
  | Ev.audio _ _ => 4

/-- The frame an event carries (0 for frameless records). -/
def evFrame : Ev → ℕ
  | Ev.key f _ _ => f
  | Ev.cam f => f
  | _ => 0

/-- Stream order: an earlier phase, or the same phase with a
non-decreasing frame. -/
def evLe (a b : Ev) : Prop :=
  phase a < phase b ∨ (phase a = phase b ∧ evFrame a ≤ evFrame b)

/-- Recognizes the audio-strip record. -/
def isAudioEv : Ev → Bool
  | Ev.audio _ _ => true
  | _ => false

/-- The frame of a keyframe record, `none` for every other record. -/
def keyFrameOf : Ev → Option ℕ
  | Ev.key f _ _ => some f
  | _ => none

/-- The frames of the keyframe records of the stream, in emission order. -/
def keyFrames (n : ℕ) : List ℕ := (emitStream n).filterMap keyFrameOf

/-! ### The pose solver and the numeric emission -/

noncomputable section

/-- Rounding to four decimal digits, the effect of the Rust format
specifier `{:.4}` used for every part transform component
(`main.rs` lines 78, 83, 84, 118, 119, 125, 126). -/
def round4 (x : ℝ) : ℝ := ((round (x * 10000) : ℤ) : ℝ) / 10000

/-- `main.rs` line 106: `let forward_speed = 0.1;`. -/
def forwardSpeed : ℝ := 0.1

/-- `main.rs` line 107: `let y_offset = frame as f32 * forward_speed;`. -/
def yOffset (f : ℕ) : ℝ := (f : ℝ) * forwardSpeed

/-- Modelled from the spec: the shared gait frequency constant of the missing
`scene.rs` (section 4.2), a fixed design parameter making the gait cycle
repeat every fixed number of frames (here 60 frames). -/
def gaitFreq : ℝ := Real.pi / 30

/-- Modelled from the spec: amplitude of the root body-sway oscillation of the
missing `scene.rs` (section 4.2, "a small periodic oscillation"). -/
def swayAmp : ℝ := 0.05

/-- Modelled from the spec: per-limb swing phase of the missing `scene.rs`.
Section 4.2 requires left and right limbs 180 degrees out of phase and arms
out of phase with the same-side legs. -/
def phaseOf (name : String) : ℝ :=
  if name = "ArmR" ∨ name = "LegL" then Real.pi else 0

/-- Modelled from the spec: per-limb swing amplitude of the missing
`scene.rs` (section 4.2, "larger for legs, smaller for arms"). -/
def ampOf (name : String) : ℝ :=
  if strContains name "Leg" then 0.8
  else if strContains name "Arm" then 0.5
  else 0.1

/-- Modelled from the spec: the sinusoidal limb swing of the missing
`scene.rs` — amplitude times the sine of the gait frequency scaled by the
frame, plus the per-limb phase (section 4.2). -/
def swing (name : String) (f : ℕ) : ℝ :=
  ampOf name * Real.sin (gaitFreq * (f : ℝ) + phaseOf name)

/-- The swing of a limb with its phase argument additionally shifted by `d`,
used to state the left/right phase-opposition property. -/
def swingShifted (name : String) (d : ℝ) (f : ℕ) : ℝ :=
  ampOf name * Real.sin (gaitFreq * (f : ℝ) + phaseOf name + d)

/-- A real 3-vector. -/
structure V3 where
  x : ℝ
  y : ℝ
  z : ℝ

/-- Coercion of the rational bind geometry into the real-valued pose space. -/
def QV3.toV3 (v : QV3) : V3 := ⟨(v.x : ℝ), (v.y : ℝ), (v.z : ℝ)⟩

/-- The per-part, per-frame solver output consumed by `main.rs`
(fields used at lines 78-84 and 115-128): name, optional parent name,
location, rotation and scale. -/
structure Pose where
  name : String
  parent : Option String
  location : V3
  rotation : V3
  scale : V3

/-- Modelled from the spec: the pose of one part at one frame, the body of the
missing `scene.rs` solver.  Per section 4.2 the root keeps its bind location
(the comment at `main.rs` line 112 calls the returned torso value "world-ish";
the forward travel itself is applied by the caller, which per section 4.3 and
`main.rs` lines 107 and 118 subtracts the forward-travel offset from the root
travel-axis component — and per the specification the camera then keeps a
constant following distance, which pins the solver torso travel-axis value to
the bind value), with a small sinusoidal body-sway rotation; limbs stay
parent-local: bind location plus a sinusoidal swing, swing rotation about the
x axis, bind scale unchanged. -/
def posePart (f : ℕ) (p : Part) : Pose :=
  match p.parent with
  | none =>
      { name := p.name, parent := none,
        location := p.bindLoc.toV3,
        rotation := ⟨0, 0, swayAmp * Real.sin (gaitFreq * (f : ℝ))⟩,
        scale := p.bindScale.toV3 }
  | some q =>
      { name := p.name, parent := some q,
        location := ⟨p.bindLoc.toV3.x, p.bindLoc.toV3.y + 0.1 * swing p.name f,
                     p.bindLoc.toV3.z⟩,
        rotation := ⟨swing p.name f, 0, 0⟩,
        scale := p.bindScale.toV3 }

/-- Modelled from the spec: the solver `scene::calculate_walk_cycle` of the
missing `scene.rs`, called at `main.rs` lines 74 and 103.  Section 4.2 makes
it a total function returning one pose per part in rig declaration order; the
second argument (the total frame count) does not enter the math.  The call
site uses the returned value directly as an iterable, so the function returns
a plain sequence, not a fallible result. -/
def calculate_walk_cycle (frame total : ℕ) : List Pose :=
  parts.map (posePart frame)

/-- The solver output for the root part (the unique part without a parent). -/
def torsoPose (f : ℕ) : Pose := posePart f torsoPart

/-- The travel-axis (y) location `main.rs` line 118 emits for the root part at
frame `f`: the solver y component minus `y_offset`, formatted with `{:.4}`. -/
def emittedRootLocY (f : ℕ) : ℝ := round4 ((torsoPose f).location.y - yOffset f)

/-- The travel-axis (y) location of the camera keyframe at frame `f`,
`main.rs` line 151: `y_pos = -(frame * 0.1) + 8`. -/
def cameraLocY (f : ℕ) : ℝ := -((f : ℝ) * 0.1) + 8

/-- The travel-axis component of the root bind location. -/
def torsoBindTravel : ℝ := (torsoPart.bindLoc.y : ℝ)

/-- The nine numeric components a creation record emits for one object
(`main.rs` lines 76-84): location, scale and rotation, each component
formatted `{:.4}`. -/
def poseCreateComponents (o : Pose) : List ℝ :=
  [round4 o.location.x, round4 o.location.y, round4 o.location.z,
   round4 o.scale.x, round4 o.scale.y, round4 o.scale.z,
   round4 o.rotation.x, round4 o.rotation.y, round4 o.rotation.z]

/-- All numeric components of the creation records, which use the frame-0
solver output (`main.rs` line 74, `calculate_walk_cycle(0, FRAMES)`). -/
def createComponents : List ℝ :=
  (calculate_walk_cycle 0 1800).flatMap poseCreateComponents

/-- The six numeric components the animation loop emits for one object at
frame `f` (`main.rs` lines 115-128): for the root, location with the
forward-travel offset subtracted from y, then rotation; for children, local
location then rotation — every component formatted `{:.4}`. -/
def poseKeyComponents (f : ℕ) (o : Pose) : List ℝ :=
  if o.parent.isNone then
    [round4 o.location.x, round4 (o.location.y - yOffset f), round4 o.location.z,
     round4 o.rotation.x, round4 o.rotation.y, round4 o.rotation.z]
  else
    [round4 o.location.x, round4 o.location.y, round4 o.location.z,
     round4 o.rotation.x, round4 o.rotation.y, round4 o.rotation.z]

/-- All numeric components the animation loop emits for frames `0..=n`
(`main.rs` lines 102-131). -/
def keyComponents (n : ℕ) : List ℝ :=
  (List.range (n + 1)).flatMap
    (fun f => (calculate_walk_cycle f n).flatMap (poseKeyComponents f))

/-- Every numeric part-transform component of the emitted script, in emission
order: creation components then animation-loop components. -/
def emittedPartComponents (n : ℕ) : List ℝ := createComponents ++ keyComponents n

/-- `x` carries at most four decimal digits: it is an integer multiple
of `1 / 10000`. -/
def mult4 (x : ℝ) : Prop := ∃ k : ℤ, x = (k : ℝ) / 10000

end

/-! ### The render-invocation stage -/

/-- The console messages the render stage of `main` can print
(`main.rs` lines 206, 223, 225, 229-230, 235-236). -/
inductive RenderMsg
  | foundBlender
  | renderComplete
  | renderErrorOutput
  | execFailed
  | blenderNotFound
deriving DecidableEq

/-- The render stage of `main.rs` lines 202-238: when a renderer executable is
found it is spawned; a successful exit, a non-zero exit and a spawn failure
each only print messages; when no executable is found, only a message is
printed.  No branch produces an error value. -/
def renderStage (found spawnOk exitOk : Bool) : List RenderMsg :=
  if found then
    if spawnOk then
      if exitOk then [RenderMsg.foundBlender, RenderMsg.renderComplete]
      else [RenderMsg.foundBlender, RenderMsg.renderErrorOutput]
    else [RenderMsg.foundBlender, RenderMsg.execFailed]
  else [RenderMsg.blenderNotFound]

/-- Observable outcome of one `main` run: whether it returned `Ok`, the record
stream written to the script file (`none` when the run aborted before the
write), and the render-stage messages. -/
structure MainResult where
  isOk : Bool
  script : Option (List Ev)
  msgs : List RenderMsg

/-- Control flow of `fn main` (`main.rs` lines 13-241): audio generation and
the script-file write are the only fallible steps (the `?` operators at lines
15, 178, 179); after the file write, the render stage runs and `main` ends
with `Ok(())` at line 240 whatever the render stage did. -/
def rustMain (audioOk fileOk found spawnOk exitOk : Bool) : MainResult :=
  if audioOk then
    if fileOk then ⟨true, some (emitStream 1800), renderStage found spawnOk exitOk⟩
    else ⟨false, none, []⟩
  else ⟨false, none, []⟩

/-! ### Helper lemmas -/

/-- Rounding to four decimals is the identity on integer multiples
of one tenth. -/
theorem round4_intDivTen (k : ℤ) : round4 ((k : ℝ) / 10) = (k : ℝ) / 10 := by
  unfold round4
  have h : ((k : ℝ) / 10) * 10000 = ((k * 1000 : ℤ) : ℝ) := by push_cast; ring
  rw [h, round_intCast]
  push_cast
  ring

/-- Closed form of the emitted root travel-axis location. -/
theorem emittedRootLocY_eq (f : ℕ) : emittedRootLocY f = -((f : ℝ) / 10) := by
  have hy : (torsoPose f).location.y = 0 := by
    simp [torsoPose, posePart, torsoPart, QV3.toV3]
  have h : (torsoPose f).location.y - yOffset f = ((-(f : ℤ) : ℤ) : ℝ) / 10 := by
    rw [hy]
    unfold yOffset forwardSpeed
    push_cast
    norm_num
    ring
  rw [emittedRootLocY, h, round4_intDivTen]
  push_cast
  ring

/-- The output of `round4` always carries at most four decimal digits. -/
theorem mult4_round4 (x : ℝ) : mult4 (round4 x) :=
  ⟨round (x * 10000), rfl⟩

/-! ### Claim C4 -/

/-- Claim C4: material classification is a total function of the part name —
the dispatch emitted by `main.rs` lines 86-91 agrees, for every string, with
the spec rule: a name containing "Head" is Skin; otherwise a name containing
"Arm" or "Leg" is PrimaryAccent; every other name is SecondaryAccent. -/
theorem c4_classification_total (s : String) :
    classifyEmit s = matOfClass (classifySpec s) := by
  unfold classifyEmit classifySpec
  cases hh : strContains s "Head" <;> cases ha : strContains s "Arm" <;>
    cases hl : strContains s "Leg" <;> simp [hh, ha, hl, matOfClass]

/-! ### Claim C1 -/

/-- Claim C1 counterexample: at frame 1800 with `forward_speed = 0.1` the
emitted root travel-axis location differs from
`bindLocation.travelAxis + 1800 * forwardSpeed` by 360, far beyond the 1e-4
tolerance — `main.rs` line 118 subtracts the forward offset, so the emitted
value is the bind value minus 180, not plus 180. -/
theorem c1_travel_counterexample :
    |emittedRootLocY 1800 - (torsoBindTravel + 1800 * forwardSpeed)| > 1 / 10000 := by
  rw [emittedRootLocY_eq]
  have hb : torsoBindTravel = 0 := by
    simp [torsoBindTravel, torsoPart]
  rw [hb]
  unfold forwardSpeed
  push_cast
  rw [abs_of_nonpos (by norm_num)]
  norm_num

/-- Claim C1 (amended): for every frame `f` the emitted root travel-axis
location equals `bindLocation.travelAxis - f * forwardSpeed` exactly (the
rounding to 4 decimals is lossless here), it is monotone (non-increasing) in
the frame, and at frame 1800 with `forwardSpeed = 0.1` it equals the bind
value minus 180.0: the forward-travel offset is subtracted, not added. -/
theorem c1_travel_amended :
    (∀ f : ℕ, emittedRootLocY f = torsoBindTravel - (f : ℝ) * forwardSpeed)
      ∧ Antitone emittedRootLocY
      ∧ emittedRootLocY 1800 = torsoBindTravel - 180 := by
  have hb : torsoBindTravel = 0 := by
    simp [torsoBindTravel, torsoPart]
  have hval : ∀ f : ℕ, emittedRootLocY f = torsoBindTravel - (f : ℝ) * forwardSpeed := by
    intro f
    rw [emittedRootLocY_eq, hb]
    unfold forwardSpeed
    norm_num
    ring
  refine ⟨hval, ?_, ?_⟩
  · intro a b hab
    rw [emittedRootLocY_eq, emittedRootLocY_eq]
    have hc : (a : ℝ) ≤ (b : ℝ) := by exact_mod_cast hab
    linarith
  · rw [hval 1800, hb]
    unfold forwardSpeed
    norm_num

/-! ### Claim C5 -/

/-- Claim C5: at every frame the camera keyframe travel-axis location and the
emitted root travel-axis location differ by the same constant 8 — the camera
(`main.rs` line 151) and the root (`main.rs` lines 107, 118) both recede by
`0.1` per frame, so the following distance never changes. -/
theorem c5_camera_distance_constant (f : ℕ) :
    cameraLocY f - emittedRootLocY f = 8
      ∧ cameraLocY f - emittedRootLocY f = cameraLocY 0 - emittedRootLocY 0 := by
  have h : ∀ g : ℕ, cameraLocY g - emittedRootLocY g = 8 := by
    intro g
    rw [emittedRootLocY_eq]
    unfold cameraLocY
    norm_num
    ring
  exact ⟨h f, by rw [h f, h 0]⟩

/-! ### Claim C2 -/

/-- Claim C2 counterexample: called at frame `totalFrames + 1 = 1801` the
solver returns a full pose list, one pose per part (6 poses), rather than
failing — no `InvalidFrame` error exists anywhere in the code, and the call
site (`main.rs` line 103) consumes the return value directly as a plain
sequence with no error handling. -/
theorem c2_invalid_frame_counterexample :
    (calculate_walk_cycle 1801 1800).length = 6 := by
  simp [calculate_walk_cycle, parts]

/-- Claim C2 (amended): the solver is total for every frame whatsoever — it
always returns exactly one pose per rig part — and in particular does not
fail at `totalFrames + 1`; no out-of-range rejection exists, and none is ever
exercised because the animation loop of `main.rs` line 102 only iterates
frames `0..=totalFrames`. -/
theorem c2_solver_total_amended :
    (∀ frame total : ℕ, (calculate_walk_cycle frame total).length = parts.length)
      ∧ (List.range (1800 + 1)).all (fun f => decide (f ≤ 1800)) = true := by
  constructor
  · intro frame total
    simp [calculate_walk_cycle]
  · rw [List.all_eq_true]
    intro x hx
    exact decide_eq_true (Nat.le_of_lt_succ (List.mem_range.mp hx))

/-! ### Claim C9 -/

/-- Claim C9: left/right paired limbs swing with phases offset by exactly pi
radians — the right-arm phase is the left-arm phase plus pi and the left-leg
phase is the right-leg phase plus pi, and at every frame the swing of the
left limb equals the swing of the paired right limb with its phase argument
shifted by pi. -/
theorem c9_limb_phase_opposition :
    (phaseOf "ArmR" = phaseOf "ArmL" + Real.pi)
      ∧ (phaseOf "LegL" = phaseOf "LegR" + Real.pi)
      ∧ (∀ f : ℕ, swing "ArmL" f = swingShifted "ArmR" Real.pi f)
      ∧ (∀ f : ℕ, swing "LegL" f = swingShifted "LegR" Real.pi f) := by
  have hArmL : phaseOf "ArmL" = 0 := by
    unfold phaseOf
    rw [if_neg (by decide)]
  have hArmR : phaseOf "ArmR" = Real.pi := by
    unfold phaseOf
    rw [if_pos (Or.inl rfl)]
  have hLegL : phaseOf "LegL" = Real.pi := by
    unfold phaseOf
    rw [if_pos (Or.inr rfl)]
  have hLegR : phaseOf "LegR" = 0 := by
    unfold phaseOf
    rw [if_neg (by decide)]
  have haArm : ampOf "ArmL" = ampOf "ArmR" := by
    unfold ampOf
    rw [show strContains "ArmL" "Leg" = false from by decide,
        show strContains "ArmR" "Leg" = false from by decide,
        show strContains "ArmL" "Arm" = true from by decide,
        show strContains "ArmR" "Arm" = true from by decide]
  have haLeg : ampOf "LegL" = ampOf "LegR" := by
    unfold ampOf
    rw [show strContains "LegL" "Leg" = true from by decide,
        show strContains "LegR" "Leg" = true from by decide,
        if_pos rfl, if_pos rfl]
  refine ⟨by rw [hArmR, hArmL, zero_add], by rw [hLegL, hLegR, zero_add], ?_, ?_⟩
  · intro f
    unfold swing swingShifted
    rw [hArmL, hArmR, haArm,
        show gaitFreq * (f : ℝ) + Real.pi + Real.pi
            = (gaitFreq * (f : ℝ) + 0) + 2 * Real.pi from by ring,
        Real.sin_add_two_pi]
  · intro f
    unfold swing swingShifted
    rw [hLegL, hLegR, haLeg,
        show gaitFreq * (f : ℝ) + 0 + Real.pi
            = gaitFreq * (f : ℝ) + Real.pi from by ring]

/-! ### Claim C10 -/

/-- Claim C10: once the script file is written, the render stage cannot change
the outcome — whether the renderer executable is found, spawns, or exits
non-zero, `main` still returns `Ok`, the written script is the same record
stream, and the render outcomes surface only as console messages. -/
theorem c10_render_failure_isolated (found spawnOk exitOk : Bool) :
    (rustMain true true found spawnOk exitOk).isOk = true
      ∧ (rustMain true true found spawnOk exitOk).script = some (emitStream 1800)
      ∧ (rustMain true true found spawnOk exitOk).msgs
          = renderStage found spawnOk exitOk :=
  ⟨rfl, rfl, rfl⟩

/-! ### Claim C8 -/

/-- Claim C8: every numeric transform component emitted for a part — the
creation-record location, scale and rotation components and every
animation-loop location and rotation component, for every part and every
frame — is an integer multiple of `1 / 10000`, i.e. carries exactly four
decimal digits, because each one goes through the `{:.4}` format. -/
theorem c8_components_rounded (n : ℕ) : (emittedPartComponents n).Forall mult4 := by
  rw [List.forall_iff_forall_mem]
  intro x hx
  rcases List.mem_append.mp hx with h | h
  · rcases List.mem_flatMap.mp h with ⟨o, ho, hmem⟩
    simp only [poseCreateComponents, List.mem_cons, List.not_mem_nil, or_false] at hmem
    rcases hmem with rfl | rfl | rfl | rfl | rfl | rfl | rfl | rfl | rfl <;>
      exact mult4_round4 _
  · rcases List.mem_flatMap.mp h with ⟨f, hf, hmem⟩
    rcases List.mem_flatMap.mp hmem with ⟨o, ho, hmem2⟩
    cases hp : o.parent.isNone <;>
      simp only [poseKeyComponents, hp, Bool.false_eq_true, if_true, if_false,
        List.mem_cons, List.not_mem_nil, or_false] at hmem2 <;>
      rcases hmem2 with rfl | rfl | rfl | rfl | rfl | rfl <;>
      exact mult4_round4 _

/-! ### Claim C3 -/

/-- The stream contains exactly one audio record: the strip of `main.rs`
lines 159-164 with `channel=1` and `frame_start=1`. -/
theorem audio_filter (n : ℕ) : (emitStream n).filter isAudioEv = [Ev.audio 1 1] := by
  unfold emitStream
  rw [List.filter_append, List.filter_append, List.filter_append, List.filter_append]
  have hc : (parts.map (fun p => Ev.create p.name)).filter isAudioEv = [] := by decide
  have hl : (parts.filterMap (fun p => p.parent.map (fun q =>
      Ev.link p.name q))).filter isAudioEv = [] := by decide
  have hk : ((List.range (n + 1)).flatMap frameKeyBlock).filter isAudioEv = [] := by
    rw [List.filter_eq_nil_iff]
    intro a ha
    rcases List.mem_flatMap.mp ha with ⟨f, _, hfb⟩
    rcases List.mem_flatMap.mp hfb with ⟨p, _, hpair⟩
    simp only [List.mem_cons, List.not_mem_nil, or_false] at hpair
    rcases hpair with rfl | rfl <;> simp [isAudioEv]
  have hcam : ((List.range (n + 1)).map Ev.cam).filter isAudioEv = [] := by
    rw [List.filter_eq_nil_iff]
    intro a ha
    rcases List.mem_map.mp ha with ⟨f, _, rfl⟩
    simp [isAudioEv]
  rw [hc, hl, hk, hcam]
  rfl

/-- The first keyframe record of the stream is at frame 0: the timeline
starts at frame 0 (`main.rs` line 102, `for frame in 0..=FRAMES`). -/
theorem keyFrames_head (n : ℕ) : (keyFrames n).head? = some 0 := by
  unfold keyFrames emitStream
  rw [List.filterMap_append, List.filterMap_append, List.filterMap_append,
      List.filterMap_append, List.range_succ_eq_map, List.flatMap_cons,
      List.filterMap_append]
  rw [show List.filterMap keyFrameOf (parts.map (fun p => Ev.create p.name)) = []
      from by decide]
  rw [show List.filterMap keyFrameOf (parts.filterMap (fun p => p.parent.map (fun q =>
      Ev.link p.name q))) = [] from by decide]
  rw [show List.filterMap keyFrameOf (frameKeyBlock 0)
      = [0, 0, 0, 0, 0, 0, 0, 0, 0, 0, 0, 0] from by decide]
  rfl

/-- Claim C3 counterexample: the emitted stream carries exactly one audio cue
and its start frame is 1, while the timeline starts at frame 0 — the audio
cue does not start at the first frame of the timeline. -/
theorem c3_audio_start_counterexample :
    (emitStream 1800).filter isAudioEv = [Ev.audio 1 1]
      ∧ (keyFrames 1800).head? = some 0
      ∧ (1 : ℕ) ≠ 0 :=
  ⟨audio_filter 1800, keyFrames_head 1800, by decide⟩

/-- Claim C3 (amended): `main` emits exactly one audio cue with channel index
1 and start frame 1, while the keyframe timeline starts at frame 0 — the cue
starts one frame after the first timeline frame, not at it. -/
theorem c3_audio_cue_amended (n : ℕ) :
    (emitStream n).filter isAudioEv = [Ev.audio 1 1]
      ∧ (keyFrames n).head? = some 0 :=
  ⟨audio_filter n, keyFrames_head n⟩

/-! ### Claim C6 -/

/-- Claim C6: every parent-link record of the emitted stream references a part
name that appears in an earlier creation record — the stream splits as a
prefix containing a creation record for the referenced parent name and a
suffix containing the link record (`main.rs` emits all creation records at
lines 76-92 before the parenting pass at lines 95-99, and every parent name
of the rig names an existing part). -/
theorem c6_parent_links_resolve (n : ℕ) (c p : String)
    (h : Ev.link c p ∈ emitStream n) :
    ∃ l1 l2, emitStream n = l1 ++ l2 ∧ Ev.create p ∈ l1 ∧ Ev.link c p ∈ l2 := by
  unfold emitStream at h ⊢
  rcases List.mem_append.mp h with h1 | h2
  · exfalso
    rcases List.mem_map.mp h1 with ⟨q, _, heq⟩
    exact Ev.noConfusion heq
  · rcases List.mem_append.mp h2 with hl | h3
    · rw [show parts.filterMap (fun r => r.parent.map (fun q => Ev.link r.name q))
          = [Ev.link "Head" "Torso", Ev.link "ArmL" "Torso", Ev.link "ArmR" "Torso",
             Ev.link "LegL" "Torso", Ev.link "LegR" "Torso"] from by decide] at hl
      simp only [List.mem_cons, List.not_mem_nil, or_false] at hl
      rcases hl with heq | heq | heq | heq | heq <;>
        · simp only [Ev.link.injEq] at heq
          obtain ⟨rfl, rfl⟩ := heq
          exact ⟨_, _, rfl, by decide, List.mem_append_left _ (by decide)⟩
    · exfalso
      rcases List.mem_append.mp h3 with hk | h4
      · rcases List.mem_flatMap.mp hk with ⟨f, _, hfb⟩
        rcases List.mem_flatMap.mp hfb with ⟨q, _, hpair⟩
        simp only [List.mem_cons, List.not_mem_nil, or_false] at hpair
        rcases hpair with heq | heq <;> exact Ev.noConfusion heq
      · rcases List.mem_append.mp h4 with hcm | hau
        · rcases List.mem_map.mp hcm with ⟨f, _, heq⟩
          exact Ev.noConfusion heq
        · simp only [List.mem_cons, List.not_mem_nil, or_false] at hau
          exact Ev.noConfusion hau

/-- Witness for claim C6 at a concrete link record of the concrete stream. -/
theorem c6_parent_links_resolve_witness :
    (Ev.link "Head" "Torso" ∈ emitStream 0)
      ∧ ∃ l1 l2, emitStream 0 = l1 ++ l2 ∧ Ev.create "Torso" ∈ l1
          ∧ Ev.link "Head" "Torso" ∈ l2 :=
  ⟨by decide, c6_parent_links_resolve 0 "Head" "Torso" (by decide)⟩

/-! ### Claim C7 -/

instance : DecidableRel evLe := fun a b => by
  unfold evLe
  infer_instance

/-- Every record of a frame block is a keyframe record of that frame. -/
theorem mem_frameKeyBlock {f : ℕ} {e : Ev} (he : e ∈ frameKeyBlock f) :
    phase e = 2 ∧ evFrame e = f := by
  rcases List.mem_flatMap.mp he with ⟨q, _, hpair⟩
  simp only [List.mem_cons, List.not_mem_nil, or_false] at hpair
  rcases hpair with rfl | rfl <;> exact ⟨rfl, rfl⟩

/-- Every record of the animation-loop block has phase 2. -/
theorem phase_mem_keys {m : ℕ} {e : Ev}
    (he : e ∈ (List.range m).flatMap frameKeyBlock) : phase e = 2 := by
  rcases List.mem_flatMap.mp he with ⟨f, _, hfb⟩
  exact (mem_frameKeyBlock hfb).1

/-- Every record of the camera block has phase 3. -/
theorem phase_mem_cams {m : ℕ} {e : Ev}
    (he : e ∈ (List.range m).map Ev.cam) : phase e = 3 := by
  rcases List.mem_map.mp he with ⟨f, _, rfl⟩
  rfl

/-- One frame block is internally ordered: all its records share the frame. -/
theorem frameKeyBlock_pairwise (f : ℕ) : (frameKeyBlock f).Pairwise evLe := by
  refine List.pairwise_of_forall_mem_list ?_
  intro a ha b hb
  obtain ⟨hpa, hfa⟩ := mem_frameKeyBlock ha
  obtain ⟨hpb, hfb⟩ := mem_frameKeyBlock hb
  exact Or.inr ⟨by rw [hpa, hpb], by rw [hfa, hfb]⟩

/-- The animation loop emits its keyframe records in ascending frame order. -/
theorem keys_pairwise (m : ℕ) : ((List.range m).flatMap frameKeyBlock).Pairwise evLe := by
  induction m with
  | zero => exact List.Pairwise.nil
  | succ k ih =>
      rw [List.range_succ, List.flatMap_append, List.flatMap_cons, List.flatMap_nil,
        List.append_nil, List.pairwise_append]
      refine ⟨ih, frameKeyBlock_pairwise k, ?_⟩
      intro a ha b hb
      obtain ⟨f, hf, hafb⟩ := List.mem_flatMap.mp ha
      obtain ⟨hpa, hfa⟩ := mem_frameKeyBlock hafb
      obtain ⟨hpb, hfb⟩ := mem_frameKeyBlock hb
      refine Or.inr ⟨by rw [hpa, hpb], ?_⟩
      rw [hfa, hfb]
      exact le_of_lt (List.mem_range.mp hf)

/-- The camera keyframes are emitted in ascending frame order. -/
theorem cams_pairwise (m : ℕ) : ((List.range m).map Ev.cam).Pairwise evLe := by
  rw [List.pairwise_map]
  exact (List.pairwise_lt_range m).imp (fun h => Or.inr ⟨rfl, le_of_lt h⟩)

/-- Claim C7: the emitted stream is ordered in strictly separated phases —
every creation record precedes every parent-link record, which precede the
keyframe records (emitted in ascending frame order), which precede the camera
and audio cues — and the stream contains a keyframe record for every frame
`0..=totalFrames` (witnessed here by the root location keyframes). -/
theorem c7_stream_phase_order (n : ℕ) :
    (emitStream n).Pairwise evLe
      ∧ ((List.range (n + 1)).map (fun f => Ev.key f "Torso" false)) ⊆ emitStream n := by
  constructor
  · unfold emitStream
    rw [List.pairwise_append]
    refine ⟨by decide, ?_, ?_⟩
    · rw [List.pairwise_append]
      refine ⟨by decide, ?_, ?_⟩
      · rw [List.pairwise_append]
        refine ⟨keys_pairwise (n + 1), ?_, ?_⟩
        · rw [List.pairwise_append]
          refine ⟨cams_pairwise (n + 1), List.pairwise_singleton _ _, ?_⟩
          intro a ha b hb
          simp only [List.mem_cons, List.not_mem_nil, or_false] at hb
          subst hb
          exact Or.inl (by rw [phase_mem_cams ha]; exact Nat.lt_succ_self 3)
        · intro a ha b hb
          have hpa := phase_mem_keys ha
          rcases List.mem_append.mp hb with hc | hau
          · exact Or.inl (by rw [hpa, phase_mem_cams hc]; exact Nat.lt_succ_self 2)
          · simp only [List.mem_cons, List.not_mem_nil, or_false] at hau
            subst hau
            exact Or.inl (by rw [hpa]; norm_num [phase])
      · intro a ha b hb
        have hpa : phase a = 1 := by
          rcases List.mem_filterMap.mp ha with ⟨q, _, hsome⟩
          rcases Option.map_eq_some'.mp hsome with ⟨t, _, rfl⟩
          rfl
        refine Or.inl ?_
        rw [hpa]
        rcases List.mem_append.mp hb with hk | hb2
        · rw [phase_mem_keys hk]; norm_num
        · rcases List.mem_append.mp hb2 with hc | hau
          · rw [phase_mem_cams hc]; norm_num
          · simp only [List.mem_cons, List.not_mem_nil, or_false] at hau
            subst hau
            norm_num [phase]
    · intro a ha b hb
      have hpa : phase a = 0 := by
        rcases List.mem_map.mp ha with ⟨q, _, rfl⟩
        rfl
      refine Or.inl ?_
      rw [hpa]
      rcases List.mem_append.mp hb with hl | hb2
      · rcases List.mem_filterMap.mp hl with ⟨q, _, hsome⟩
        rcases Option.map_eq_some'.mp hsome with ⟨t, _, rfl⟩
        norm_num [phase]
      · rcases List.mem_append.mp hb2 with hk | hb3
        · rw [phase_mem_keys hk]; norm_num
        · rcases List.mem_append.mp hb3 with hc | hau
          · rw [phase_mem_cams hc]; norm_num
          · simp only [List.mem_cons, List.not_mem_nil, or_false] at hau
            subst hau
            norm_num [phase]
  · intro a ha
    rcases List.mem_map.mp ha with ⟨f, hf, rfl⟩
    unfold emitStream
    refine List.mem_append_right _ (List.mem_append_right _ (List.mem_append_left _ ?_))
    exact List.mem_flatMap.mpr
      ⟨f, hf, List.mem_flatMap.mpr
        ⟨torsoPart, by unfold parts; exact List.mem_cons_self _ _, List.mem_cons_self _ _⟩⟩

end GhostRender
